import Mathlib

/-!
Verification development for the go-transit-mcp repository.

The first part embeds the pure merge logic and the API-call result handling
of `src/functions.py` together with the tool wrappers of `src/server.py` and
`src/serverHTTP.py`.  Python dictionaries are embedded as structures whose
optional keys become `Option` fields; raised exceptions become `Except.error`
values; the upstream HTTP interaction is abstracted as an `Upstream` outcome
that the parsing/checking logic consumes.

The second part models, from the specification's own words, the query-engine
components (location resolver, service calendar, trip joiner, fare resolver)
that the specification describes but that are not present under `src/`
(the Python code forwards those queries to the upstream Metrolinx API).
-/

/-- One GTFS trip descriptor, as read by `mergeRealTimeData`
(`entity['tripUpdate']['trip']`, `informed_entity['trip']`);
`tripId?` models `trip.get('tripId', '')`'s optional key. -/
structure TripDescriptor where
  tripId? : Option String
deriving DecidableEq

/-- One `informedEntity` element of a GTFS alert. -/
structure InformedEntity where
  trip? : Option TripDescriptor
deriving DecidableEq

/-- One GTFS alert (`entity['alert']`); `payload` carries the remaining
alert fields opaquely, as the Python code stores the whole alert dict. -/
structure Alert where
  informedEntity? : Option (List InformedEntity)
  payload : List (String × String)
deriving DecidableEq

/-- The `departure` member of a GTFS stop-time update. -/
structure Departure where
  delay? : Option Int
deriving DecidableEq

/-- One `stopTimeUpdate` element of a GTFS trip update. -/
structure StopTimeUpdate where
  departure? : Option Departure
deriving DecidableEq

/-- One GTFS trip update (`entity['tripUpdate']`). -/
structure TripUpdate where
  trip? : Option TripDescriptor
  stopTimeUpdate? : Option (List StopTimeUpdate)
deriving DecidableEq

/-- One entity of the trip-updates feed. -/
structure TUEntity where
  tripUpdate? : Option TripUpdate
deriving DecidableEq

/-- One service-exception record (`exceptions['Exceptions']` element). -/
structure ExceptionRec where
  tripNumber? : Option String
  message? : Option String
deriving DecidableEq

/-- One entity of the alerts feed. -/
structure AlertEntity where
  alert? : Option Alert
deriving DecidableEq

/-- The trip-updates feed argument of `mergeRealTimeData`:
a dict whose `entity` key may be absent. -/
structure TUFeed where
  entity? : Option (List TUEntity)
deriving DecidableEq

/-- The exceptions feed argument: a dict whose `Exceptions` key may be absent. -/
structure ExcFeed where
  exceptions? : Option (List ExceptionRec)
deriving DecidableEq

/-- The alerts feed argument: a dict whose `entity` key may be absent. -/
structure AlertFeed where
  entity? : Option (List AlertEntity)
deriving DecidableEq

/-- The `Status` dict that `mergeRealTimeData` writes into every trip. -/
structure Status where
  isDelayed : Bool
  isCancelled : Bool
  delayMinutes : Int
  realTimeDeparture : Option String
  realTimeArrival : Option String
  statusMessage : Option String
  alerts : List Alert
deriving DecidableEq

/-- One scheduled trip (`service['Trips']['Trip']` element).  `number?` and
`line?` model the optional `Number` and `Line` keys read via `.get`;
`status?` is the `Status` key (absent before the merge writes it);
`extra` carries all untouched keys. -/
structure SchTrip where
  number? : Option String
  line? : Option String
  status? : Option Status
  extra : List (String × String)
deriving DecidableEq

/-- One scheduled service (`journey['Services']` element); `trips` is
`service['Trips']['Trip']`. -/
structure SchService where
  trips : List SchTrip
  extra : List (String × String)
deriving DecidableEq

/-- One scheduled journey (`scheduled_trips['SchJourneys']` element). -/
structure SchJourney where
  services : List SchService
  extra : List (String × String)
deriving DecidableEq

/-- The `Metadata` dict of an API response, with its optional
`ErrorCode` / `ErrorMessage` string fields. -/
structure Metadata where
  errorCode? : Option String
  errorMessage? : Option String
deriving DecidableEq

/-- A parsed trip-schedule response body: the dict returned by `findTrip` and
consumed by `mergeRealTimeData`.  `journeys?` is the optional `SchJourneys`
key; `extra` carries remaining keys opaquely. -/
structure SchedDict where
  metadata? : Option Metadata
  journeys? : Option (List SchJourney)
  extra : List (String × String)
deriving DecidableEq

/-- Python truthiness of a `SchedDict`: an empty dict is falsy. -/
def SchedDict.isEmptyDict (d : SchedDict) : Bool :=
  d.metadata?.isNone && d.journeys?.isNone && d.extra.isEmpty

/-- The `trip_updates_lookup` dict built by `mergeRealTimeData`
(lines 197-202 of functions.py): keyed by `tripId` (default `''`),
later entries overwrite earlier ones, missing feed gives an empty lookup. -/
def buildTripUpdatesLookup (trip_updates : Option TUFeed) :
    String → Option TripUpdate :=
  match trip_updates with
  | none => fun _ => none
  | some f =>
    match f.entity? with
    | none => fun _ => none
    | some entities =>
      entities.foldl
        (fun acc e =>
          match e.tripUpdate? with
          | none => acc
          | some u =>
            match u.trip? with
            | none => acc
            | some tr => fun k => if k = tr.tripId?.getD "" then some u else acc k)
        (fun _ => none)

/-- The `exceptions_lookup` dict (lines 204-208): keyed by `TripNumber`
(default `''`). -/
def buildExceptionsLookup (exceptions : Option ExcFeed) :
    String → Option ExceptionRec :=
  match exceptions with
  | none => fun _ => none
  | some f =>
    match f.exceptions? with
    | none => fun _ => none
    | some excs =>
      excs.foldl
        (fun acc e => fun k => if k = e.tripNumber?.getD "" then some e else acc k)
        (fun _ => none)

/-- The `alerts_lookup` dict (lines 210-222): a key maps to the list of
alerts appended for it, in feed order.  In the Python dict a key is present
exactly when at least one alert was appended, so membership in the dict is
modelled as the looked-up list being nonempty. -/
def buildAlertsLookup (alerts : Option AlertFeed) : String → List Alert :=
  match alerts with
  | none => fun _ => []
  | some f =>
    match f.entity? with
    | none => fun _ => []
    | some entities =>
      entities.foldl
        (fun acc e =>
          match e.alert? with
          | none => acc
          | some alert =>
            match alert.informedEntity? with
            | none => acc
            | some infos =>
              infos.foldl
                (fun acc2 ie =>
                  match ie.trip? with
                  | none => acc2
                  | some tr =>
                    fun k =>
                      if k = tr.tripId?.getD "" then acc2 k ++ [alert] else acc2 k)
                acc)
        (fun _ => [])

/-- The freshly initialised `trip['Status']` value (lines 232-240). -/
def initStatus : Status :=
  { isDelayed := false
    isCancelled := false
    delayMinutes := 0
    realTimeDeparture := none
    realTimeArrival := none
    statusMessage := none
    alerts := [] }

/-- Python falsiness of the `statusMessage` field (`not ...statusMessage`):
true for a missing message and for the empty string. -/
def optStrFalsy : Option String → Bool
  | none => true
  | some s => s == ""

/-- One iteration of the delay loop (lines 252-258): a stop-time update with
a positive `departure.delay` marks the trip delayed and overwrites the delay
minutes and message. -/
def applyDelay (st : Status) (su : StopTimeUpdate) : Status :=
  match su.departure? with
  | none => st
  | some dep =>
    match dep.delay? with
    | none => st
    | some d =>
      if 0 < d then
        { st with
          isDelayed := true
          delayMinutes := d.ediv 60
          statusMessage := some ("Delayed by " ++ toString (d.ediv 60) ++ " minutes") }
      else st

/-- The cancellation/delay stage of the per-trip enhancement (lines 242-258):
starting from the fresh `Status`, a trip number found in the exceptions
lookup marks the trip cancelled; only otherwise (`elif`) is a matching trip
update's delay loop applied. -/
def cancelOrDelayStatus (excL : String → Option ExceptionRec)
    (tuL : String → Option TripUpdate) (tripNumber tripId : String) : Status :=
  match excL tripNumber with
  | some e =>
    { initStatus with
      isCancelled := true
      statusMessage := some (e.message?.getD "Trip cancelled") }
  | none =>
    match tuL tripId with
    | some u =>
      match u.stopTimeUpdate? with
      | some sus => sus.foldl applyDelay initStatus
      | none => initStatus
    | none => initStatus

/-- The alerts stage of the per-trip enhancement (lines 260-264): when the
trip id has alerts, attach them and fill in a message if none is set. -/
def attachAlerts (alL : String → List Alert) (tripId : String)
    (st : Status) : Status :=
  match alL tripId with
  | [] => st
  | als =>
    { st with
      alerts := als
      statusMessage :=
        if optStrFalsy st.statusMessage then some "Service alerts available"
        else st.statusMessage }

/-- The per-trip enhancement body of `mergeRealTimeData` (lines 227-264):
initialise `Status`, mark cancelled from the exceptions lookup, otherwise
apply delays from the trip-updates lookup, then attach alerts. -/
def mergeTrip (excL : String → Option ExceptionRec)
    (tuL : String → Option TripUpdate) (alL : String → List Alert)
    (t : SchTrip) : SchTrip :=
  let tripNumber := t.number?.getD ""
  let tripId := t.line?.getD "" ++ "_" ++ tripNumber
  { t with status? := some (attachAlerts alL tripId
      (cancelOrDelayStatus excL tuL tripNumber tripId)) }

/-- functions.py lines 185-266: merge real-time data with scheduled trips.
The `scheduled_trips` argument is `none` for Python `None`; a falsy dict or a
dict without the `SchJourneys` key is returned unchanged; otherwise every trip
of every service of every journey is enhanced by `mergeTrip`. -/
def mergeRealTimeData (scheduled_trips : Option SchedDict)
    (trip_updates : Option TUFeed) (exceptions : Option ExcFeed)
    (alerts : Option AlertFeed) : Option SchedDict :=
  match scheduled_trips with
  | none => none
  | some s =>
    if s.isEmptyDict || s.journeys?.isNone then some s
    else
      let tuL := buildTripUpdatesLookup trip_updates
      let excL := buildExceptionsLookup exceptions
      let alL := buildAlertsLookup alerts
      let js := (s.journeys?.getD []).map (fun j =>
        { j with services := j.services.map (fun sv =>
            { sv with trips := sv.trips.map (mergeTrip excL tuL alL) }) })
      some { s with journeys? := some js }

/-- The transformation that merging with all feeds missing actually performs:
every trip gains a default `Status`, nothing else changes. -/
def withDefaultStatus (scheduled_trips : Option SchedDict) : Option SchedDict :=
  match scheduled_trips with
  | none => none
  | some s =>
    if s.isEmptyDict || s.journeys?.isNone then some s
    else
      some { s with journeys? := some ((s.journeys?.getD []).map (fun j =>
        { j with services := j.services.map (fun sv =>
            { sv with trips := sv.trips.map (fun t =>
                { t with status? := some initStatus }) }) })) }

/-- A concrete scheduled trip with no `Status` key,
used to evaluate the merge on a concrete input. -/
def c1Trip : SchTrip :=
  { number? := some "2749", line? := some "MI", status? := none, extra := [] }

/-- A concrete schedule response containing one journey, one service and
one trip. -/
def c1Sched : SchedDict :=
  { metadata? := some { errorCode? := some "200", errorMessage? := none }
    journeys? := some [{ services := [{ trips := [c1Trip], extra := [] }], extra := [] }]
    extra := [] }

/-- The outcome of one upstream HTTP interaction, as observed by the parsing
code of functions.py: a transport failure (`requests` exception or a non-2xx
status from `raise_for_status`), an unparsable body (`.json()` raising
`ValueError`), a parsed body that is not a dict, or a parsed dict. -/
inductive Upstream (α : Type) where
  | transportFailure (msg : String)
  | unparsableBody (msg : String)
  | nonDictBody
  | parsed (body : α)
deriving DecidableEq

/-- Evaluation of `data.get('Metadata', {}).get('ErrorCode')`. -/
def metaErrorCode (m? : Option Metadata) : Option String :=
  m?.bind Metadata.errorCode?

/-- Evaluation of `data.get('Metadata', {}).get('ErrorMessage', 'Unknown error')`
before the default is applied. -/
def metaErrorMessage (m? : Option Metadata) : Option String :=
  m?.bind Metadata.errorMessage?

/-- functions.py lines 14-40: `findTrip` raises when the API key is missing,
on a transport failure, on an unparsable body, and on any response whose
`Metadata.ErrorCode` is not the string `'200'`; it returns the parsed dict
wholesale otherwise.  Raised exceptions are embedded as `Except.error`. -/
def findTrip (apiKey : Option String) (resp : Upstream SchedDict) :
    Except String SchedDict :=
  match apiKey with
  | none => Except.error "METROLINX_API_KEY not found in environment variables"
  | some _ =>
    match resp with
    | .transportFailure m => Except.error ("Request failed: " ++ m)
    | .unparsableBody m => Except.error ("Invalid JSON response: " ++ m)
    | .nonDictBody => Except.error "Unexpected error: response body is not an object"
    | .parsed data =>
      if metaErrorCode data.metadata? == some "200" then Except.ok data
      else
        Except.error ("Unexpected error: API Error: "
          ++ (metaErrorMessage data.metadata?).getD "Unknown error")

/-- A parsed stations response body (`Stop/All`): its payload beyond
`Metadata` is carried opaquely. -/
structure StationsDict where
  metadata? : Option Metadata
  extra : List (String × String)
deriving DecidableEq

/-- functions.py lines 43-69: `getStations`, same checking logic as
`findTrip`. -/
def getStations (apiKey : Option String) (resp : Upstream StationsDict) :
    Except String StationsDict :=
  match apiKey with
  | none => Except.error "METROLINX_API_KEY not found in environment variables"
  | some _ =>
    match resp with
    | .transportFailure m => Except.error ("Request failed: " ++ m)
    | .unparsableBody m => Except.error ("Invalid JSON response: " ++ m)
    | .nonDictBody => Except.error "Unexpected error: response body is not an object"
    | .parsed data =>
      if metaErrorCode data.metadata? == some "200" then Except.ok data
      else
        Except.error ("Unexpected error: API Error: "
          ++ (metaErrorMessage data.metadata?).getD "Unknown error")

/-- A parsed fares response body (`Fares/{from}/{to}`): its payload beyond
`Metadata` is carried opaquely. -/
structure FareDict where
  metadata? : Option Metadata
  extra : List (String × String)
deriving DecidableEq

/-- functions.py lines 72-98: `getFare`, same checking logic as `findTrip`. -/
def getFare (apiKey : Option String) (resp : Upstream FareDict) :
    Except String FareDict :=
  match apiKey with
  | none => Except.error "METROLINX_API_KEY not found in environment variables"
  | some _ =>
    match resp with
    | .transportFailure m => Except.error ("Request failed: " ++ m)
    | .unparsableBody m => Except.error ("Invalid JSON response: " ++ m)
    | .nonDictBody => Except.error "Unexpected error: response body is not an object"
    | .parsed data =>
      if metaErrorCode data.metadata? == some "200" then Except.ok data
      else
        Except.error ("Unexpected error: API Error: "
          ++ (metaErrorMessage data.metadata?).getD "Unknown error")

/-- functions.py lines 268-304: `findTripWithRealTime` propagates a `findTrip`
exception, returns Python `None` when the scheduled data is falsy, fetches the
three feeds each under its own try/except (a failed fetch degrades to `None`),
and merges.  The three feed-fetch outcomes are passed in as `Except` values. -/
def findTripWithRealTime (apiKey : Option String) (schedResp : Upstream SchedDict)
    (tuFetch : Except String TUFeed) (excFetch : Except String ExcFeed)
    (alFetch : Except String AlertFeed) : Except String (Option SchedDict) :=
  match findTrip apiKey schedResp with
  | .error e => Except.error e
  | .ok data =>
    if data.isEmptyDict then Except.ok none
    else
      Except.ok (mergeRealTimeData (some data)
        tuFetch.toOption excFetch.toOption alFetch.toOption)

namespace Server

/-- server.py lines 17-32: the `get_stations` tool returns the stations dict,
or `None` when any exception is raised inside. -/
def get_stations (apiKey : Option String) (resp : Upstream StationsDict) :
    Option StationsDict :=
  match getStations apiKey resp with
  | .ok d => some d
  | .error _ => none

/-- server.py lines 34-81: the `find_trip` tool returns the `findTrip` result,
or `None` when any exception is raised inside. -/
def find_trip (apiKey : Option String) (resp : Upstream SchedDict) :
    Option SchedDict :=
  match findTrip apiKey resp with
  | .ok d => some d
  | .error _ => none

end Server

namespace ServerHTTP

/-- serverHTTP.py lines 21-36: the `get_stations` tool. -/
def get_stations (apiKey : Option String) (resp : Upstream StationsDict) :
    Option StationsDict :=
  match getStations apiKey resp with
  | .ok d => some d
  | .error _ => none

/-- serverHTTP.py lines 38-93: the `find_trip` tool returns the
`findTripWithRealTime` result (itself `dict` or `None`), or `None` when any
exception is raised inside. -/
def find_trip (apiKey : Option String) (schedResp : Upstream SchedDict)
    (tuFetch : Except String TUFeed) (excFetch : Except String ExcFeed)
    (alFetch : Except String AlertFeed) : Option SchedDict :=
  match findTripWithRealTime apiKey schedResp tuFetch excFetch alFetch with
  | .ok v => v
  | .error _ => none

/-- serverHTTP.py lines 95-136: the `get_fare` tool returns the fares dict,
or `None` when any exception is raised inside. -/
def get_fare (apiKey : Option String) (resp : Upstream FareDict) :
    Option FareDict :=
  match getFare apiKey resp with
  | .ok d => some d
  | .error _ => none

end ServerHTTP

/-- Modelled from the spec: a canonical stop record (spec section 3); the stop
table and its `Stop` entities are described by the spec but absent from the
code under src/ (the Python code forwards queries to the upstream API). -/
structure Stop where
  id : String
  name : String
  zone : String
deriving DecidableEq

/-- Modelled from the spec: a fare rule `{fareId: "zoneFrom-zoneTo", price,
currency}` (spec section 3); the fare table is absent from src/. -/
structure FareRule where
  fareId : String
  price : ℚ
  currency : String
deriving DecidableEq

/-- Modelled from the spec: the Fare Resolver (spec section 4.5), absent from
src/ (`getFare` in functions.py only forwards the ordered station pair to the
upstream API).  Build `fareId = zone(fromStop) + "-" + zone(toStop)` and look
up an exact match in the fare table; no reverse-pair fallback. -/
def fare (fromStop toStop : Stop) (fareRules : List FareRule) : Option FareRule :=
  fareRules.find? (fun r => r.fareId == fromStop.zone ++ "-" ++ toStop.zone)

/-- Modelled from the spec: a scheduled vehicle run `{id, serviceId,
directionId}` (spec section 3), absent from src/. -/
structure TripRow where
  id : String
  serviceId : String
  directionId : Nat
deriving DecidableEq

/-- Modelled from the spec: a stop-time row `{tripId, stopId, departureTime}`
(spec section 3), absent from src/.  Departure times are `"HH:MM:SS"` strings,
whose lexicographic order is chronological order. -/
structure StopTime where
  tripId : String
  stopId : String
  departureTime : String
deriving DecidableEq

/-- Modelled from the spec: a derived itinerary entry (spec section 3),
absent from src/. -/
structure ItineraryEntry where
  tripId : String
  departureTime : String
  arrivalTime : String
  fromStop : String
  toStop : String
deriving DecidableEq

/-- Executable lexicographic strict comparison of character lists,
agreeing with the `List Char` order. -/
def charListLtb : List Char → List Char → Bool
  | _, [] => false
  | [], _ :: _ => true
  | c :: cs, d :: ds =>
    if c < d then true else if d < c then false else charListLtb cs ds

/-- Executable strict comparison of strings, agreeing with the string
order (lexicographic on characters). -/
def strLtb (a b : String) : Bool :=
  charListLtb a.data b.data

/-- Executable non-strict comparison of strings. -/
def strLeb (a b : String) : Bool :=
  strLtb a b || a == b

/-- The itinerary ordering demanded by the spec (section 4.4): ascending by
`from`-stop departure time, ties broken by trip id ascending. -/
def entryLE (a b : ItineraryEntry) : Prop :=
  a.departureTime < b.departureTime ∨
    (a.departureTime = b.departureTime ∧ a.tripId ≤ b.tripId)

/-- Executable form of `entryLE`. -/
def entryLEb (a b : ItineraryEntry) : Bool :=
  strLtb a.departureTime b.departureTime ||
    (a.departureTime == b.departureTime && strLeb a.tripId b.tripId)

/-- Insertion step of the itinerary sort. -/
def insertEntry (a : ItineraryEntry) : List ItineraryEntry → List ItineraryEntry
  | [] => [a]
  | b :: l => if entryLEb a b then a :: b :: l else b :: insertEntry a l

/-- Insertion sort of itinerary entries by `entryLE`. -/
def sortEntries : List ItineraryEntry → List ItineraryEntry
  | [] => []
  | a :: l => insertEntry a (sortEntries l)

/-- Modelled from the spec: the per-direction candidate pool of the Trip
Joiner (spec section 4.4), absent from src/.  Restrict to trips whose
`serviceId` and `directionId` match; a trip qualifies only if both stops are
present and `departureTime(from) < departureTime(to)`. -/
def qualifyingEntries (serviceId : String) (dir : Nat)
    (fromStopId toStopId : String) (trips : List TripRow)
    (stopTimes : List StopTime) : List ItineraryEntry :=
  (trips.filter (fun t => t.serviceId == serviceId && t.directionId == dir)).filterMap
    (fun t =>
      match stopTimes.find? (fun s => s.tripId == t.id && s.stopId == fromStopId),
            stopTimes.find? (fun s => s.tripId == t.id && s.stopId == toStopId) with
      | some sf, some st =>
        if strLtb sf.departureTime st.departureTime then
          some { tripId := t.id, departureTime := sf.departureTime,
                 arrivalTime := st.departureTime, fromStop := fromStopId,
                 toStop := toStopId }
        else none
      | some _, none => none
      | none, some _ => none
      | none, none => none)

/-- Modelled from the spec: the Trip Joiner `findTrips` (spec section 4.4),
absent from src/.  Direction 0 is evaluated first; the first direction that
yields any matching trip wins; each direction's entries are sorted by
`entryLE`; `NotFound` (here `none`) if no direction yields a qualifying
trip. -/
def findTrips (serviceId fromStopId toStopId : String) (trips : List TripRow)
    (stopTimes : List StopTime) : Option (List ItineraryEntry) :=
  let d0 := sortEntries (qualifyingEntries serviceId 0 fromStopId toStopId trips stopTimes)
  if d0 = [] then
    let d1 := sortEntries (qualifyingEntries serviceId 1 fromStopId toStopId trips stopTimes)
    if d1 = [] then none else some d1
  else some d0

/-- Case-folding of a string, character by character. -/
def lowerStr (s : String) : String :=
  String.mk (s.data.map Char.toLower)

/-- Accumulating word splitter over a character list: alphanumeric characters
are case-folded and collected, every other character ends the current word. -/
def wordsAux : List Char → List Char → List String
  | [], acc => if acc.isEmpty then [] else [String.mk acc.reverse]
  | c :: cs, acc =>
    if c.isAlphanum then wordsAux cs (c.toLower :: acc)
    else (if acc.isEmpty then [] else [String.mk acc.reverse]) ++ wordsAux cs []

/-- Keep-first deduplication of a word list. -/
def dedupWords : List String → List String → List String
  | [], _ => []
  | w :: ws, seen =>
    if seen.contains w then dedupWords ws seen
    else w :: dedupWords ws (w :: seen)

/-- Modelled from the spec: tokenization of the Location Resolver's fuzzy
stage (spec section 4.2 step 4), absent from src/ — both input and candidate
name become word sets, case-folded and punctuation-insensitive. -/
def tokenize (s : String) : List String :=
  dedupWords (wordsAux s.data []) []

/-- Modelled from the spec: the input-word coverage `|common| / |inputWords|`
of a candidate name (spec section 4.2 step 4), absent from src/. -/
def coverage (input cand : String) : ℚ :=
  let iw := tokenize input
  let cw := tokenize cand
  ((iw.filter (fun w => cw.contains w)).length : ℚ) / (iw.length : ℚ)

/-- Modelled from the spec: the high-signal transit terms of the fuzzy bonus
(spec section 4.2 step 4). -/
def bonusWords : List String :=
  ["university", "college", "centre", "center", "station", "terminal"]

/-- Modelled from the spec: the fuzzy score
`0.7 * (|common|/|inputWords|) + 0.3 * (|common|/|candidateWords|) +
0.1 * |common|` plus a `+0.2` bonus for a common high-signal word
(spec section 4.2 step 4), absent from src/. -/
def fuzzyScore (input cand : String) : ℚ :=
  let iw := tokenize input
  let cw := tokenize cand
  let common := iw.filter (fun w => cw.contains w)
  7 / 10 * ((common.length : ℚ) / (iw.length : ℚ))
    + 3 / 10 * ((common.length : ℚ) / (cw.length : ℚ))
    + 1 / 10 * (common.length : ℚ)
    + (if common.any (fun w => bonusWords.contains w) then 1 / 5 else 0)

/-- One step of the fuzzy selection fold: a candidate below the coverage
threshold 0.6 is rejected regardless of score; otherwise it replaces the
running best only on a strictly higher score (ties keep the earliest seen). -/
def fuzzyStep (input : String) (best : Option (ℚ × String))
    (c : String × String) : Option (ℚ × String) :=
  if coverage input c.1 < 3 / 5 then best
  else
    match best with
    | none => some (fuzzyScore input c.1, c.2)
    | some b =>
      if fuzzyScore input c.1 > b.1 then some (fuzzyScore input c.1, c.2) else b

/-- Modelled from the spec: the fuzzy stage of the Location Resolver (spec
section 4.2 step 4), absent from src/.  Candidates are `(name, stopId)` pairs
iterated in a fixed order; the returned stop id is the passing candidate with
the strictly highest score, earliest seen on ties. -/
def fuzzyMatch (input : String) (candidates : List (String × String)) :
    Option String :=
  (candidates.foldl (fuzzyStep input) none).map Prod.snd

/-- Modelled from the spec: a service-calendar row `{date, serviceId}` with
the date as a `YYYYMMDD` number (spec sections 3 and 6), absent from src/. -/
structure ServiceDay where
  date : Nat
  serviceId : String
deriving DecidableEq

/-- Weekday of a `YYYYMMDD` Gregorian date by Zeller's congruence, as a
lowercase English name. -/
def weekdayOf (date : Nat) : String :=
  let y := date / 10000
  let m := (date / 100) % 100
  let d := date % 100
  let m' := if m < 3 then m + 12 else m
  let y' := if m < 3 then y - 1 else y
  let k := y' % 100
  let j := y' / 100
  let h := (d + 13 * (m' + 1) / 5 + k + k / 4 + j / 4 + 5 * j) % 7
  ["saturday", "sunday", "monday", "tuesday", "wednesday", "thursday",
   "friday"].getD h ""

/-- Modelled from the spec: the qualification test of the Service Calendar
(spec section 4.3), absent from src/ — the date is strictly after `today` and
its weekday name equals the requested one case-insensitively. -/
def qualifies (weekday : String) (today : Nat) (e : ServiceDay) : Bool :=
  decide (today < e.date) && (weekdayOf e.date == lowerStr weekday)

/-- Earliest-date selection over a nonempty pool, first seen wins ties. -/
def minByDate (e : ServiceDay) (l : List ServiceDay) : ServiceDay :=
  l.foldl (fun b x => if x.date < b.date then x else b) e

/-- Modelled from the spec: `resolveServiceId` of the Service Calendar (spec
section 4.3), absent from src/.  Filter to qualifying entries, `NotFound`
(here `none`) if none remain, otherwise the `serviceId` of the earliest
qualifying date. -/
def resolveServiceId (weekday : String) (today : Nat)
    (calendar : List ServiceDay) : Option String :=
  match calendar.filter (qualifies weekday today) with
  | [] => none
  | e :: es => some (minByDate e es).serviceId

/-- A concrete scheduled trip in the exceptions feed, for evaluating the
merge with all feeds present. -/
def c8Trip : SchTrip :=
  { number? := some "2749", line? := some "MI", status? := none, extra := [] }

/-- A concrete schedule response around `c8Trip`. -/
def c8Sched : SchedDict :=
  { metadata? := some { errorCode? := some "200", errorMessage? := none }
    journeys? := some [{ services := [{ trips := [c8Trip], extra := [] }], extra := [] }]
    extra := [] }

/-- A concrete trip-updates feed carrying a positive delay for `c8Trip`. -/
def c8TU : TUFeed :=
  { entity? := some [{ tripUpdate? := some {
      trip? := some { tripId? := some "MI_2749" },
      stopTimeUpdate? := some [{ departure? := some { delay? := some 300 } }] } }] }

/-- A concrete exceptions feed cancelling `c8Trip`. -/
def c8Exc : ExcFeed :=
  { exceptions? := some [{ tripNumber? := some "2749", message? := some "Cancelled" }] }

/-- A concrete alerts feed with no entities. -/
def c8Al : AlertFeed := { entity? := none }

/-- A concrete successful schedule response with a legitimately empty
journey list (`SchJourneys` present and `[]`). -/
def c3Sched : SchedDict :=
  { metadata? := some { errorCode? := some "200", errorMessage? := none }
    journeys? := some []
    extra := [] }

/-- A concrete successful parsed response for exercising the API-result
checking. -/
def c9Sched : SchedDict :=
  { metadata? := some { errorCode? := some "200", errorMessage? := none }
    journeys? := none
    extra := [] }

/-- Concrete stop for the spec's end-to-end fare scenario (zone 5). -/
def c4Milton : Stop := { id := "ML", name := "Milton GO", zone := "5" }

/-- Concrete stop for the spec's end-to-end fare scenario (zone 1). -/
def c4Union : Stop := { id := "UN", name := "Union Station", zone := "1" }

/-- Concrete fare rule for the ordered zone pair 5-1. -/
def c4Rule : FareRule := { fareId := "5-1", price := 9.55, currency := "CAD" }

/-- Concrete fare table containing only the 5-1 rule. -/
def c4Rules : List FareRule := [c4Rule]

/-- Concrete trip rows for the spec's sort-stability scenario. -/
def c5Trips : List TripRow :=
  [{ id := "B200", serviceId := "S", directionId := 0 },
   { id := "A100", serviceId := "S", directionId := 0 },
   { id := "C300", serviceId := "S", directionId := 0 }]

/-- Concrete stop times: `A100` and `B200` depart together at 07:10,
`C300` at 19:10. -/
def c5StopTimes : List StopTime :=
  [{ tripId := "A100", stopId := "F", departureTime := "07:10:00" },
   { tripId := "A100", stopId := "T", departureTime := "08:10:00" },
   { tripId := "B200", stopId := "F", departureTime := "07:10:00" },
   { tripId := "B200", stopId := "T", departureTime := "08:20:00" },
   { tripId := "C300", stopId := "F", departureTime := "19:10:00" },
   { tripId := "C300", stopId := "T", departureTime := "20:10:00" }]

/-- The itinerary the joiner produces on `c5Trips`/`c5StopTimes`:
`A100` before `B200` on the 07:10 tie, `C300` last. -/
def c5Sorted : List ItineraryEntry :=
  [{ tripId := "A100", departureTime := "07:10:00", arrivalTime := "08:10:00",
     fromStop := "F", toStop := "T" },
   { tripId := "B200", departureTime := "07:10:00", arrivalTime := "08:20:00",
     fromStop := "F", toStop := "T" },
   { tripId := "C300", departureTime := "19:10:00", arrivalTime := "20:10:00",
     fromStop := "F", toStop := "T" }]

/-- Concrete service calendar: today (2025-09-03, a Wednesday), the next
Wednesday 2025-09-10, and the one after. -/
def c7Cal : List ServiceDay :=
  [{ date := 20250903, serviceId := "w0" },
   { date := 20250917, serviceId := "w2" },
   { date := 20250910, serviceId := "w1" }]

/-! Helper lemmas: the executable string comparison agrees with the string
order, and the insertion sort produces `entryLE`-sorted output. -/

lemma charListLtb_iff : ∀ (as bs : List Char), charListLtb as bs = true ↔ as < bs := by
  intro as
  induction as with
  | nil =>
    intro bs
    cases bs with
    | nil =>
      refine iff_of_false (by simp [charListLtb]) ?_
      intro h
      cases h
    | cons d ds =>
      refine iff_of_true (by simp [charListLtb]) ?_
      exact List.Lex.nil
  | cons c cs ih =>
    intro bs
    cases bs with
    | nil =>
      refine iff_of_false (by simp [charListLtb]) ?_
      intro h
      cases h
    | cons d ds =>
      simp only [charListLtb]
      by_cases h1 : c < d
      · rw [if_pos h1]
        exact iff_of_true rfl (List.Lex.rel h1)
      · rw [if_neg h1]
        by_cases h2 : d < c
        · rw [if_pos h2]
          refine iff_of_false (by simp) ?_
          intro h
          cases h with
          | cons htl => exact absurd h2 (lt_irrefl _)
          | rel h' => exact h1 h'
        · rw [if_neg h2]
          have hcd : c = d := le_antisymm (not_lt.mp h2) (not_lt.mp h1)
          subst hcd
          rw [ih ds]
          constructor
          · intro h
            exact List.Lex.cons h
          · intro h
            cases h with
            | cons htl => exact htl
            | rel h' => exact absurd h' h1

lemma strLtb_iff_lt (a b : String) : strLtb a b = true ↔ a < b := by
  rw [String.lt_iff_toList_lt]
  exact charListLtb_iff a.data b.data

lemma strLeb_iff_le (a b : String) : strLeb a b = true ↔ a ≤ b := by
  rw [le_iff_lt_or_eq]
  simp [strLeb, strLtb_iff_lt]

lemma entryLEb_iff (a b : ItineraryEntry) : entryLEb a b = true ↔ entryLE a b := by
  simp [entryLEb, entryLE, strLtb_iff_lt, strLeb_iff_le]

lemma entryLE_trans : ∀ {a b c : ItineraryEntry}, entryLE a b → entryLE b c → entryLE a c := by
  intro a b c h1 h2
  rcases h1 with h1 | ⟨h1e, h1i⟩
  · rcases h2 with h2 | ⟨h2e, _⟩
    · exact Or.inl (lt_trans h1 h2)
    · exact Or.inl (h2e ▸ h1)
  · rcases h2 with h2 | ⟨h2e, h2i⟩
    · exact Or.inl (h1e ▸ h2)
    · exact Or.inr ⟨h1e.trans h2e, le_trans h1i h2i⟩

lemma entryLE_total (a b : ItineraryEntry) : entryLE a b ∨ entryLE b a := by
  rcases lt_trichotomy a.departureTime b.departureTime with h | h | h
  · exact Or.inl (Or.inl h)
  · rcases le_total a.tripId b.tripId with h2 | h2
    · exact Or.inl (Or.inr ⟨h, h2⟩)
    · exact Or.inr (Or.inr ⟨h.symm, h2⟩)
  · exact Or.inr (Or.inl h)

lemma mem_insertEntry {x a : ItineraryEntry} :
    ∀ {l : List ItineraryEntry}, x ∈ insertEntry a l → x = a ∨ x ∈ l := by
  intro l
  induction l with
  | nil =>
    intro h
    simp only [insertEntry, List.mem_singleton] at h
    exact Or.inl h
  | cons b l ih =>
    simp only [insertEntry]
    split
    · intro h
      rcases List.mem_cons.mp h with h2 | h2
      · exact Or.inl h2
      · exact Or.inr h2
    · intro h
      rcases List.mem_cons.mp h with h2 | h2
      · cases h2
        exact Or.inr (List.mem_cons_self _ _)
      · rcases ih h2 with h3 | h3
        · exact Or.inl h3
        · exact Or.inr (List.mem_cons_of_mem _ h3)

lemma pairwise_insertEntry (a : ItineraryEntry) :
    ∀ (l : List ItineraryEntry), l.Pairwise entryLE →
      (insertEntry a l).Pairwise entryLE := by
  intro l
  induction l with
  | nil =>
    intro _
    simp [insertEntry]
  | cons b l ih =>
    intro hp
    rw [List.pairwise_cons] at hp
    obtain ⟨hb, hl⟩ := hp
    simp only [insertEntry]
    split
    case isTrue hab =>
      refine List.Pairwise.cons ?_ (List.Pairwise.cons hb hl)
      intro x hx
      rcases List.mem_cons.mp hx with h | h
      · cases h
        exact (entryLEb_iff a b).mp hab
      · exact entryLE_trans ((entryLEb_iff a b).mp hab) (hb x h)
    case isFalse hab =>
      refine List.Pairwise.cons ?_ (ih hl)
      intro x hx
      rcases mem_insertEntry hx with h | h
      · cases h
        rcases entryLE_total a b with h' | h'
        · exact absurd ((entryLEb_iff a b).mpr h') hab
        · exact h'
      · exact hb x h

lemma pairwise_sortEntries : ∀ (l : List ItineraryEntry),
    (sortEntries l).Pairwise entryLE := by
  intro l
  induction l with
  | nil => simp [sortEntries]
  | cons a l ih => exact pairwise_insertEntry a _ ih

/-! Helper lemmas about the real-time merge. -/

lemma applyDelay_isCancelled (st : Status) (su : StopTimeUpdate) :
    (applyDelay st su).isCancelled = st.isCancelled := by
  unfold applyDelay
  split
  · rfl
  · split
    · rfl
    · split
      · rfl
      · rfl

lemma foldl_applyDelay_isCancelled :
    ∀ (l : List StopTimeUpdate) (st : Status),
      (l.foldl applyDelay st).isCancelled = st.isCancelled := by
  intro l
  induction l with
  | nil => intro st; rfl
  | cons su l ih =>
    intro st
    rw [List.foldl_cons, ih, applyDelay_isCancelled]

lemma cancelOrDelayStatus_flags (excL : String → Option ExceptionRec)
    (tuL : String → Option TripUpdate) (tripNumber tripId : String) :
    (cancelOrDelayStatus excL tuL tripNumber tripId).isCancelled = true →
    (cancelOrDelayStatus excL tuL tripNumber tripId).isDelayed = false := by
  unfold cancelOrDelayStatus
  split
  · intro _
    rfl
  · split
    · split
      · intro h
        rw [foldl_applyDelay_isCancelled] at h
        simp [initStatus] at h
      · intro h
        simp [initStatus] at h
    · intro h
      simp [initStatus] at h

lemma attachAlerts_flags (alL : String → List Alert) (tripId : String)
    (st : Status) :
    (attachAlerts alL tripId st).isCancelled = st.isCancelled ∧
    (attachAlerts alL tripId st).isDelayed = st.isDelayed := by
  unfold attachAlerts
  cases alL tripId with
  | nil => exact ⟨rfl, rfl⟩
  | cons a l => exact ⟨rfl, rfl⟩

lemma mergeTrip_flags (excL : String → Option ExceptionRec)
    (tuL : String → Option TripUpdate) (alL : String → List Alert)
    (t : SchTrip) :
    ∃ st, (mergeTrip excL tuL alL t).status? = some st ∧
      ¬(st.isCancelled = true ∧ st.isDelayed = true) := by
  refine ⟨_, rfl, ?_⟩
  rintro ⟨hc, hd⟩
  rw [(attachAlerts_flags _ _ _).1] at hc
  rw [(attachAlerts_flags _ _ _).2] at hd
  rw [cancelOrDelayStatus_flags _ _ _ _ hc] at hd
  exact Bool.false_ne_true hd

lemma mergeTrip_emptyLookups :
    mergeTrip (fun _ => none) (fun _ => none) (fun _ => []) =
      fun t => { t with status? := some initStatus } := rfl

/-! Helper lemmas about the fuzzy resolver. -/

lemma fuzzyStep_fold_sound (input : String) (cands : List (String × String)) :
    ∀ (l : List (String × String)) (acc : Option (ℚ × String)),
      (∀ c ∈ l, c ∈ cands) →
      (∀ p, acc = some p → ∃ name, (name, p.2) ∈ cands ∧ ¬ coverage input name < 3 / 5) →
      ∀ p, l.foldl (fuzzyStep input) acc = some p →
        ∃ name, (name, p.2) ∈ cands ∧ ¬ coverage input name < 3 / 5 := by
  intro l
  induction l with
  | nil =>
    intro acc _ hacc p hp
    exact hacc p hp
  | cons c l ih =>
    intro acc hsub hacc p hp
    rw [List.foldl_cons] at hp
    refine ih (fuzzyStep input acc c)
      (fun x hx => hsub x (List.mem_cons_of_mem _ hx)) ?_ p hp
    intro q hq
    unfold fuzzyStep at hq
    by_cases hcov : coverage input c.1 < 3 / 5
    · rw [if_pos hcov] at hq
      exact hacc q hq
    · rw [if_neg hcov] at hq
      split at hq
      · rw [Option.some.injEq] at hq
        refine ⟨c.1, ?_, hcov⟩
        rw [← hq]
        exact hsub c (List.mem_cons_self _ _)
      · split at hq
        · rw [Option.some.injEq] at hq
          refine ⟨c.1, ?_, hcov⟩
          rw [← hq]
          exact hsub c (List.mem_cons_self _ _)
        · exact hacc q hq

lemma coverage_eq (input cand : String) :
    coverage input cand =
      (((tokenize input).filter (fun w => (tokenize cand).contains w)).length : ℚ)
        / ((tokenize input).length : ℚ) := rfl

lemma coverage_union_centennial :
    coverage "Union" "Centennial College" < 3 / 5 := by
  have e1 : (tokenize "Union").filter
      (fun w => (tokenize "Centennial College").contains w) = [] := by decide
  have e2 : (tokenize "Union").length = 1 := by decide
  rw [coverage_eq, e1, e2]
  norm_num

/-! Helper lemmas about the service calendar. -/

lemma minByDate_mem (e : ServiceDay) (l : List ServiceDay) :
    minByDate e l = e ∨ minByDate e l ∈ l := by
  induction l generalizing e with
  | nil => exact Or.inl rfl
  | cons x l ih =>
    have h : minByDate e (x :: l) =
        minByDate (if x.date < e.date then x else e) l := rfl
    rw [h]
    rcases ih (if x.date < e.date then x else e) with h1 | h1
    · rw [h1]
      by_cases hx : x.date < e.date
      · rw [if_pos hx]
        exact Or.inr (List.mem_cons_self x l)
      · rw [if_neg hx]
        exact Or.inl rfl
    · exact Or.inr (List.mem_cons_of_mem x h1)

lemma minByDate_le (e : ServiceDay) (l : List ServiceDay) :
    (minByDate e l).date ≤ e.date ∧ ∀ x ∈ l, (minByDate e l).date ≤ x.date := by
  induction l generalizing e with
  | nil =>
    refine ⟨le_rfl, ?_⟩
    intro x hx
    cases hx
  | cons x l ih =>
    have h : minByDate e (x :: l) =
        minByDate (if x.date < e.date then x else e) l := rfl
    rw [h]
    by_cases hx : x.date < e.date
    · rw [if_pos hx]
      obtain ⟨ha, hb⟩ := ih x
      refine ⟨le_trans ha (le_of_lt hx), ?_⟩
      intro y hy
      rcases List.mem_cons.mp hy with h2 | h2
      · cases h2
        exact ha
      · exact hb y h2
    · rw [if_neg hx]
      obtain ⟨ha, hb⟩ := ih e
      refine ⟨ha, ?_⟩
      intro y hy
      rcases List.mem_cons.mp hy with h2 | h2
      · cases h2
        exact le_trans ha (not_lt.mp hx)
      · exact hb y h2

lemma qualifies_iff (weekday : String) (today : Nat) (e : ServiceDay) :
    qualifies weekday today e = true ↔
      (today < e.date ∧ weekdayOf e.date = lowerStr weekday) := by
  simp [qualifies]

lemma resolveServiceId_eq_none_iff (weekday : String) (today : Nat)
    (cal : List ServiceDay) :
    resolveServiceId weekday today cal = none ↔
      cal.filter (qualifies weekday today) = [] := by
  unfold resolveServiceId
  cases h : cal.filter (qualifies weekday today) with
  | nil => simp
  | cons e es => simp

/-! Claim theorems. -/

/-- C1 (counterexample): merging with all three feeds missing does not leave
every scheduled-trips value unchanged — on a concrete schedule with one trip
the merge augments the trip with a `Status` object. -/
theorem mergeRealTimeData_noFeeds_counterexample :
    mergeRealTimeData (some c1Sched) none none none ≠ some c1Sched := by
  decide

/-- C1 (amended): merging with all three feeds missing returns the input with
every trip augmented by the default `Status` (no delay, no cancellation, no
alerts, no messages); journeys, services and all other trip fields are
unchanged, and a falsy input or one without `SchJourneys` is returned
entirely unchanged. -/
theorem mergeRealTimeData_noFeeds_addsDefaultStatus (sched? : Option SchedDict) :
    mergeRealTimeData sched? none none none = withDefaultStatus sched? := by
  cases sched? <;> rfl

/-- C10: a scheduled-trips argument that is falsy or lacks the `SchJourneys`
key is returned unchanged by `mergeRealTimeData`, whatever the three feed
arguments are. -/
theorem mergeRealTimeData_missing_journeys_identity
    (tu : Option TUFeed) (exc : Option ExcFeed) (al : Option AlertFeed)
    (sched? : Option SchedDict)
    (h : sched? = none ∨ ∃ s, sched? = some s ∧ s.journeys? = none) :
    mergeRealTimeData sched? tu exc al = sched? := by
  rcases h with rfl | ⟨s, rfl, hs⟩
  · rfl
  · simp [mergeRealTimeData, hs]

/-- Witness for C10 at the concrete input `None`. -/
theorem mergeRealTimeData_missing_journeys_identity_witness :
    mergeRealTimeData none none none none = none :=
  mergeRealTimeData_missing_journeys_identity none none none none (Or.inl rfl)

/-- C8: on any input containing `SchJourneys`, every trip of the merge result
carries a `Status` object in which `isCancelled` and `isDelayed` are never
both true (the exceptions branch and the delay branch are an if/elif). -/
theorem merge_not_both_cancelled_and_delayed
    (tu : Option TUFeed) (exc : Option ExcFeed) (al : Option AlertFeed)
    (s : SchedDict) (js : List SchJourney) (hjs : s.journeys? = some js) :
    ∃ r, mergeRealTimeData (some s) tu exc al = some r ∧
      ∀ j ∈ r.journeys?.getD [], ∀ sv ∈ j.services, ∀ t ∈ sv.trips,
        ∃ st, t.status? = some st ∧
          ¬(st.isCancelled = true ∧ st.isDelayed = true) := by
  have hguard : s.isEmptyDict = false := by
    simp [SchedDict.isEmptyDict, hjs]
  refine ⟨{ s with journeys? := some (js.map (fun j =>
      { j with services := j.services.map (fun sv =>
          { sv with trips := sv.trips.map (mergeTrip (buildExceptionsLookup exc)
              (buildTripUpdatesLookup tu) (buildAlertsLookup al)) }) })) }, ?_, ?_⟩
  · simp [mergeRealTimeData, hguard, hjs]
  · intro j hj sv hsv t ht
    simp only [Option.getD_some] at hj
    rw [List.mem_map] at hj
    obtain ⟨j0, _, rfl⟩ := hj
    rw [List.mem_map] at hsv
    obtain ⟨sv0, _, rfl⟩ := hsv
    rw [List.mem_map] at ht
    obtain ⟨t0, _, rfl⟩ := ht
    exact mergeTrip_flags _ _ _ t0

/-- Witness for C8 at a concrete schedule whose trip is both in the
exceptions feed (cancelling it) and in the trip-updates feed (a positive
delay that the elif does not apply). -/
theorem merge_not_both_cancelled_and_delayed_witness :
    ∃ r, mergeRealTimeData (some c8Sched) (some c8TU) (some c8Exc)
        (some c8Al) = some r ∧
      ∀ j ∈ r.journeys?.getD [], ∀ sv ∈ j.services, ∀ t ∈ sv.trips,
        ∃ st, t.status? = some st ∧
          ¬(st.isCancelled = true ∧ st.isDelayed = true) :=
  merge_not_both_cancelled_and_delayed (some c8TU) (some c8Exc) (some c8Al)
    c8Sched _ rfl

/-- C2: each public tool (`get_stations` of server.py, `find_trip` and
`get_fare` of serverHTTP.py) returns the inner result as a value when the
inner call succeeds and `None` when the inner call raises — no exception
crosses the tool boundary. -/
theorem publicTools_return_value_or_none
    (key : Option String) (rs : Upstream StationsDict) (rt : Upstream SchedDict)
    (rf : Upstream FareDict) (tu : Except String TUFeed)
    (ex : Except String ExcFeed) (al : Except String AlertFeed) :
    ((∃ d, getStations key rs = Except.ok d ∧
        Server.get_stations key rs = some d) ∨
      (∃ e, getStations key rs = Except.error e ∧
        Server.get_stations key rs = none)) ∧
    ((∃ v, findTripWithRealTime key rt tu ex al = Except.ok v ∧
        ServerHTTP.find_trip key rt tu ex al = v) ∨
      (∃ e, findTripWithRealTime key rt tu ex al = Except.error e ∧
        ServerHTTP.find_trip key rt tu ex al = none)) ∧
    ((∃ d, getFare key rf = Except.ok d ∧
        ServerHTTP.get_fare key rf = some d) ∨
      (∃ e, getFare key rf = Except.error e ∧
        ServerHTTP.get_fare key rf = none)) := by
  refine ⟨?_, ?_, ?_⟩
  · cases h : getStations key rs with
    | ok d => exact Or.inl ⟨d, rfl, by simp [Server.get_stations, h]⟩
    | error e => exact Or.inr ⟨e, rfl, by simp [Server.get_stations, h]⟩
  · cases h : findTripWithRealTime key rt tu ex al with
    | ok v => exact Or.inl ⟨v, rfl, by simp [ServerHTTP.find_trip, h]⟩
    | error e => exact Or.inr ⟨e, rfl, by simp [ServerHTTP.find_trip, h]⟩
  · cases h : getFare key rf with
    | ok d => exact Or.inl ⟨d, rfl, by simp [ServerHTTP.get_fare, h]⟩
    | error e => exact Or.inr ⟨e, rfl, by simp [ServerHTTP.get_fare, h]⟩

/-- C3: at the public `find_trip` boundary a resolution/service failure
(`findTrip` raising) maps to `None`, while a successful response whose
`SchJourneys` list is empty maps to the response itself — two distinct
result values, the empty journey list never standing for the miss signal. -/
theorem findTrip_miss_vs_empty_distinct
    (key : Option String) (rt : Upstream SchedDict) (tu : Except String TUFeed)
    (ex : Except String ExcFeed) (al : Except String AlertFeed) :
    (∀ e, findTrip key rt = Except.error e →
      ServerHTTP.find_trip key rt tu ex al = none ∧
        Server.find_trip key rt = none) ∧
    (∀ d, findTrip key rt = Except.ok d → d.journeys? = some [] →
      ServerHTTP.find_trip key rt tu ex al = some d ∧
        Server.find_trip key rt = some d ∧
        some d ≠ (none : Option SchedDict)) := by
  constructor
  · intro e he
    constructor
    · simp [ServerHTTP.find_trip, findTripWithRealTime, he]
    · simp [Server.find_trip, he]
  · intro d hd hj
    obtain ⟨m?, j?, extra⟩ := d
    simp only at hj
    subst hj
    refine ⟨?_, ?_, by simp⟩
    · simp [ServerHTTP.find_trip, findTripWithRealTime, hd, SchedDict.isEmptyDict,
        mergeRealTimeData]
    · simp [Server.find_trip, hd]

/-- Witness for C3: a concrete transport failure gives `None`, a concrete
success with an empty `SchJourneys` list gives the response itself. -/
theorem findTrip_miss_vs_empty_distinct_witness :
    (ServerHTTP.find_trip (some "k") (Upstream.transportFailure "boom")
        (Except.error "e1") (Except.error "e2") (Except.error "e3") = none ∧
      Server.find_trip (some "k") (Upstream.transportFailure "boom") = none) ∧
    (ServerHTTP.find_trip (some "k") (Upstream.parsed c3Sched)
        (Except.error "e1") (Except.error "e2") (Except.error "e3") =
          some c3Sched ∧
      Server.find_trip (some "k") (Upstream.parsed c3Sched) = some c3Sched ∧
      some c3Sched ≠ (none : Option SchedDict)) :=
  ⟨(findTrip_miss_vs_empty_distinct (some "k") (Upstream.transportFailure "boom")
      (Except.error "e1") (Except.error "e2") (Except.error "e3")).1 _ rfl,
   (findTrip_miss_vs_empty_distinct (some "k") (Upstream.parsed c3Sched)
      (Except.error "e1") (Except.error "e2") (Except.error "e3")).2
     c3Sched rfl rfl⟩

/-- C9: `findTrip`, `getStations` and `getFare` return the parsed response
exactly when the API key is present, the body parsed as a dict, and
`Metadata.ErrorCode` equals the string `'200'`; in every other situation an
exception is raised and no partial result is returned. -/
theorem apiCalls_ok_iff_errorCode_200
    (key : Option String) (rt : Upstream SchedDict) (rs : Upstream StationsDict)
    (rf : Upstream FareDict) :
    (∀ d, findTrip key rt = Except.ok d ↔
      ((∃ k, key = some k) ∧ rt = Upstream.parsed d ∧
        metaErrorCode d.metadata? = some "200")) ∧
    (∀ d, getStations key rs = Except.ok d ↔
      ((∃ k, key = some k) ∧ rs = Upstream.parsed d ∧
        metaErrorCode d.metadata? = some "200")) ∧
    (∀ d, getFare key rf = Except.ok d ↔
      ((∃ k, key = some k) ∧ rf = Upstream.parsed d ∧
        metaErrorCode d.metadata? = some "200")) := by
  refine ⟨?_, ?_, ?_⟩
  · intro d
    cases key with
    | none => simp [findTrip]
    | some k =>
      cases rt with
      | transportFailure m => simp [findTrip]
      | unparsableBody m => simp [findTrip]
      | nonDictBody => simp [findTrip]
      | parsed body =>
        by_cases h : metaErrorCode body.metadata? = some "200"
        · rw [show findTrip (some k) (Upstream.parsed body) = Except.ok body from
            by simp [findTrip, h]]
          constructor
          · intro hok
            cases hok
            exact ⟨⟨k, rfl⟩, rfl, h⟩
          · rintro ⟨-, hp, -⟩
            cases hp
            rfl
        · have hne : findTrip (some k) (Upstream.parsed body) ≠ Except.ok d := by
            simp [findTrip, beq_iff_eq, h]
          refine iff_of_false hne ?_
          rintro ⟨-, hp, hc⟩
          cases hp
          exact h hc
  · intro d
    cases key with
    | none => simp [getStations]
    | some k =>
      cases rs with
      | transportFailure m => simp [getStations]
      | unparsableBody m => simp [getStations]
      | nonDictBody => simp [getStations]
      | parsed body =>
        by_cases h : metaErrorCode body.metadata? = some "200"
        · rw [show getStations (some k) (Upstream.parsed body) = Except.ok body from
            by simp [getStations, h]]
          constructor
          · intro hok
            cases hok
            exact ⟨⟨k, rfl⟩, rfl, h⟩
          · rintro ⟨-, hp, -⟩
            cases hp
            rfl
        · have hne : getStations (some k) (Upstream.parsed body) ≠ Except.ok d := by
            simp [getStations, beq_iff_eq, h]
          refine iff_of_false hne ?_
          rintro ⟨-, hp, hc⟩
          cases hp
          exact h hc
  · intro d
    cases key with
    | none => simp [getFare]
    | some k =>
      cases rf with
      | transportFailure m => simp [getFare]
      | unparsableBody m => simp [getFare]
      | nonDictBody => simp [getFare]
      | parsed body =>
        by_cases h : metaErrorCode body.metadata? = some "200"
        · rw [show getFare (some k) (Upstream.parsed body) = Except.ok body from
            by simp [getFare, h]]
          constructor
          · intro hok
            cases hok
            exact ⟨⟨k, rfl⟩, rfl, h⟩
          · rintro ⟨-, hp, -⟩
            cases hp
            rfl
        · have hne : getFare (some k) (Upstream.parsed body) ≠ Except.ok d := by
            simp [getFare, beq_iff_eq, h]
          refine iff_of_false hne ?_
          rintro ⟨-, hp, hc⟩
          cases hp
          exact h hc

/-- Witness for C9: a concrete parsed response with `ErrorCode = '200'` is
returned wholesale. -/
theorem apiCalls_ok_iff_errorCode_200_witness :
    findTrip (some "key") (Upstream.parsed c9Sched) = Except.ok c9Sched :=
  ((apiCalls_ok_iff_errorCode_200 (some "key") (Upstream.parsed c9Sched)
      Upstream.nonDictBody Upstream.nonDictBody).1 c9Sched).mpr
    ⟨⟨"key", rfl⟩, rfl, rfl⟩

/-- C4: the fare lookup depends only on the ordered pair of zones of the
resolved stops, and on the spec's concrete fare table the 5-1 query succeeds
while the reversed 1-5 query returns NotFound — no reverse-pair fallback. -/
theorem fare_direction_sensitive :
    (∀ (f f' t t' : Stop) (rules : List FareRule), f.zone = f'.zone →
      t.zone = t'.zone → fare f t rules = fare f' t' rules) ∧
    fare c4Milton c4Union c4Rules = some c4Rule ∧
    fare c4Union c4Milton c4Rules = none := by
  refine ⟨?_, rfl, rfl⟩
  intro f f' t t' rules h1 h2
  unfold fare
  rw [h1, h2]

/-- Witness for C4: the zone-congruence applied at concrete stops sharing
the Milton/Union zones. -/
theorem fare_direction_sensitive_witness :
    fare c4Milton c4Union c4Rules =
      fare { id := "X", name := "Other", zone := "5" }
        { id := "Y", name := "Other2", zone := "1" } c4Rules :=
  fare_direction_sensitive.1 c4Milton { id := "X", name := "Other", zone := "5" }
    c4Union { id := "Y", name := "Other2", zone := "1" } c4Rules rfl rfl

/-- C5: every itinerary list `findTrips` returns is sorted ascending by
`from`-stop departure time, entries with equal departure times ordered by
trip id ascending. -/
theorem findTrips_sorted_by_departure_then_tripId
    (serviceId fromStopId toStopId : String) (trips : List TripRow)
    (stopTimes : List StopTime) (l : List ItineraryEntry)
    (h : findTrips serviceId fromStopId toStopId trips stopTimes = some l) :
    l.Pairwise entryLE := by
  simp only [findTrips] at h
  split at h
  · split at h
    · exact absurd h (by simp)
    · rw [Option.some.injEq] at h
      rw [← h]
      exact pairwise_sortEntries _
  · rw [Option.some.injEq] at h
    rw [← h]
    exact pairwise_sortEntries _

/-- Witness for C5 at the spec's sort-stability example: trips departing at
07:10, 19:10, 07:10 come out as `A100`, `B200`, `C300` and are pairwise
ordered. -/
theorem findTrips_sorted_by_departure_then_tripId_witness :
    c5Sorted.Pairwise entryLE :=
  findTrips_sorted_by_departure_then_tripId "S" "F" "T" c5Trips c5StopTimes
    c5Sorted (by decide)

/-- C6: the fuzzy stage never returns a stop id all of whose candidate names
have input-word coverage below the 0.6 threshold, whatever their scores; in
particular `"Union"` against the sole candidate `"Centennial College"`
(zero common words) yields no match. -/
theorem fuzzyMatch_coverage_gate :
    (∀ (input : String) (candidates : List (String × String)) (stopId : String),
      (∀ name, (name, stopId) ∈ candidates → coverage input name < 3 / 5) →
      fuzzyMatch input candidates ≠ some stopId) ∧
    fuzzyMatch "Union" [("Centennial College", "CEN")] = none := by
  constructor
  · intro input cands stopId hall hmatch
    unfold fuzzyMatch at hmatch
    rcases Option.map_eq_some'.mp hmatch with ⟨p, hfold, hsnd⟩
    obtain ⟨name, hmem, hcov⟩ :=
      fuzzyStep_fold_sound input cands cands none (fun c hc => hc)
        (fun q hq => nomatch hq) p hfold
    rw [hsnd] at hmem
    exact hcov (hall name hmem)
  · simp [fuzzyMatch, fuzzyStep, List.foldl_cons, List.foldl_nil,
      coverage_union_centennial]

/-- Witness for C6: the coverage-gate theorem applied at the spec's
`"Union"` / `"Centennial College"` rejection example. -/
theorem fuzzyMatch_coverage_gate_witness :
    fuzzyMatch "Union" [("Centennial College", "CEN")] ≠ some "CEN" :=
  fuzzyMatch_coverage_gate.1 "Union" [("Centennial College", "CEN")] "CEN"
    (by
      intro name hname
      have h := List.mem_singleton.mp hname
      have h1 : name = "Centennial College" := congrArg Prod.fst h
      rw [h1]
      exact coverage_union_centennial)

/-- C7: `resolveServiceId` returns `NotFound` exactly when no calendar date
strictly after today matches the requested weekday case-insensitively, and
otherwise the `serviceId` of the earliest such date — today's own date is
never selected. -/
theorem resolveServiceId_next_strict_occurrence
    (weekday : String) (today : Nat) (cal : List ServiceDay) :
    (resolveServiceId weekday today cal = none ↔
      ∀ e ∈ cal, ¬(today < e.date ∧ weekdayOf e.date = lowerStr weekday)) ∧
    (∀ s, resolveServiceId weekday today cal = some s →
      ∃ e, e ∈ cal ∧ e.serviceId = s ∧ today < e.date ∧
        weekdayOf e.date = lowerStr weekday ∧ e.date ≠ today ∧
        ∀ e' ∈ cal, today < e'.date → weekdayOf e'.date = lowerStr weekday →
          e.date ≤ e'.date) := by
  constructor
  · rw [resolveServiceId_eq_none_iff, List.filter_eq_nil_iff]
    simp only [qualifies_iff]
  · intro s hs
    cases hf : cal.filter (qualifies weekday today) with
    | nil =>
      rw [(resolveServiceId_eq_none_iff weekday today cal).mpr hf] at hs
      cases hs
    | cons e es =>
      have heq : resolveServiceId weekday today cal =
          some (minByDate e es).serviceId := by
        unfold resolveServiceId
        rw [hf]
      rw [heq, Option.some.injEq] at hs
      have hmem : minByDate e es ∈ cal.filter (qualifies weekday today) := by
        rw [hf]
        rcases minByDate_mem e es with h1 | h1
        · rw [h1]
          exact List.mem_cons_self _ _
        · exact List.mem_cons_of_mem _ h1
      have hcal := (List.mem_filter.mp hmem).1
      obtain ⟨hlt, hwd⟩ := (qualifies_iff _ _ _).mp (List.mem_filter.mp hmem).2
      refine ⟨minByDate e es, hcal, hs, hlt, hwd, ne_of_gt hlt, ?_⟩
      intro e' he' hlt' hwd'
      have he'f : e' ∈ cal.filter (qualifies weekday today) :=
        List.mem_filter.mpr ⟨he', (qualifies_iff _ _ _).mpr ⟨hlt', hwd'⟩⟩
      rw [hf] at he'f
      rcases List.mem_cons.mp he'f with h2 | h2
      · cases h2
        exact (minByDate_le e es).1
      · exact (minByDate_le e es).2 e' h2

/-- Witness for C7 at the spec's next-occurrence example: today 2025-09-03
is itself a Wednesday, yet `"Wednesday"` resolves to the entry of
2025-09-10. -/
theorem resolveServiceId_next_strict_occurrence_witness :
    ∃ e, e ∈ c7Cal ∧ e.serviceId = "w1" ∧ 20250903 < e.date ∧
      weekdayOf e.date = lowerStr "Wednesday" ∧ e.date ≠ 20250903 ∧
      ∀ e' ∈ c7Cal, 20250903 < e'.date →
        weekdayOf e'.date = lowerStr "Wednesday" → e.date ≤ e'.date :=
  (resolveServiceId_next_strict_occurrence "Wednesday" 20250903 c7Cal).2 "w1"
    (by decide)
